import Mathlib

/-!
Verification of the `vuex-webextensions` synchronization protocol.

The development shallowly embeds the two source components:

* `src/backgroundScript.js` — the hub (`BackgroundScript` class): connection
  registry, per-connection echo-tracking lists, fan-out relay of mutations and
  actions, and persistence of selected state keys.
* `src/contentScript.js` — the peer (`ContentScript` class): echo tracking,
  pre-initialization queueing of mutations/actions, and the message handler
  for the initial state sync.

Store commits trigger the subscription hooks synchronously (a `commit` runs
the registered `store.subscribe` callback before returning), so commits are
modelled as "apply + run hook".  Actions resolve through the store possibly
asynchronously, so `dispatch` calls are modelled as logged call events.
`postMessage` may throw; throwing is modelled by an oracle predicate on
messages, and every modelled operation returns `Except TransportError _` so
that catching (hub) versus propagating (peer) is visible in the embedding.
-/

namespace VuexWeb

/-- JSON-style payload values; payloads must survive structured serialization
(spec §3), so the payload universe is a JSON value tree. -/
inductive JsVal where
  | null : JsVal
  | bool (b : Bool) : JsVal
  | num (n : Int) : JsVal
  | str (s : String) : JsVal
  | arr (elems : List JsVal) : JsVal
  | obj (fields : List (String × JsVal)) : JsVal

/-- A top-level store state object (`store.state`). -/
abbrev Obj := List (String × JsVal)

/-- `JSON.stringify`, as used by the echo checks
(`backgroundScript.js:68`, `contentScript.js:151,189`). -/
def stringify : JsVal → String
  | .null => "null"
  | .bool b => if b then "true" else "false"
  | .num n => toString n
  | .str s => "\"" ++ s ++ "\""
  | .arr elems => "[" ++ String.intercalate "," (stringifyList elems) ++ "]"
  | .obj fields => "\x7b" ++ String.intercalate "," (stringifyFields fields) ++ "\x7d"
where
  stringifyList : List JsVal → List String
    | [] => []
    | v :: vs => stringify v :: stringifyList vs
  stringifyFields : List (String × JsVal) → List String
    | [] => []
    | (k, v) :: fs => ("\"" ++ k ++ "\":" ++ stringify v) :: stringifyFields fs

/-- A change record: a mutation or an action, `{type, payload}` (spec §3). -/
structure Record where
  type : String
  payload : JsVal

/-- The protocol message envelopes (spec §6): `@@STORE_SYNC_STATE`,
`@@STORE_SYNC_MUTATION`, `@@STORE_SYNC_ACTION`. -/
inductive Msg where
  | syncState (data : Obj) : Msg
  | mutationSync (data : Record) : Msg
  | actionSync (data : Record) : Msg

/-- Plugin settings (spec §6, supplied at construction and immutable). -/
structure Settings where
  connectionName : List Char
  syncActions : Bool
  ignoredMutations : List String
  ignoredActions : List String
  persistentStates : List String
deriving Repr

/-- The single transport failure: `postMessage` threw. -/
inductive TransportError where
  | postFailed : TransportError
deriving DecidableEq, Repr

/-- The protocol marker substring checked against connection names, the string
literal hard-coded at `backgroundScript.js:59` and `:105`. -/
def marker : List Char := "vuex-webextensions".toList

/-- `typeof connection.name === 'string' && connection.name.includes('vuex-webextensions')`
(the negation of the skip test at `backgroundScript.js:59,105`).  A JS `name`
that is not a string is modelled as `none`. -/
def validConnectionName : Option (List Char) → Bool
  | none => false
  | some name => decide (marker <:+: name)

/-- The characters `Math.random().toString(36)` can produce (digits and
lowercase latin letters), making up the peer's random `scriptId`
(`contentScript.js:14`). -/
def isBase36Char (ch : Char) : Bool :=
  ("0123456789abcdefghijklmnopqrstuvwxyz".toList).contains ch

/-- The peer's connection name, built at `contentScript.js:25` as
`` `${this.settings.connectionName}_${this.scriptId}` ``. -/
def peerConnectionName (connectionName scriptId : List Char) : List Char :=
  connectionName ++ '_' :: scriptId

/-- The echo predicate for mutations, used on both sides: same `type` and equal
`JSON.stringify` of payloads (`backgroundScript.js:68`, `contentScript.js:151`). -/
def mutationMatches (r mutation : Record) : Bool :=
  r.type == mutation.type && stringify r.payload == stringify mutation.payload

/-- Embedding of the peer's `findIndex` + `splice(index, 1)` pattern
(`contentScript.js:151-154,189-192`): remove the first entry satisfying `p`,
or `none` when no entry matches. -/
def removeFirstMatch (p : Record → Bool) : List Record → Option (List Record)
  | [] => none
  | x :: xs => if p x then some xs else (removeFirstMatch p xs).map (x :: ·)

/-- Embedding of the hub's backward scan + `splice(j, 1)` + `break`
(`backgroundScript.js:67-74,113-120`): the loop starts at the highest index, so
it removes the last entry satisfying `p`; `none` when no entry matches. -/
def removeLastMatch (p : Record → Bool) : List Record → Option (List Record)
  | [] => none
  | x :: xs =>
    match removeLastMatch p xs with
    | some ys => some (x :: ys)
    | none => if p x then some xs else none

/-- Modelled from the spec: `filterObject` from `src/utils.js`, which is not
part of the sources.  Spec §4.1 describes its use as "the subset of local state
corresponding to `persistentStates` keys" / "the filtered subset of the
(post-mutation) state", so it keeps exactly the fields whose key is listed. -/
def filterObject (o : Obj) (keys : List String) : Obj :=
  o.filter (fun kv => keys.contains kv.1)

/-- A `store.dispatch` invocation, recording its call shape: the hub calls
`dispatch(type, payload)` (`backgroundScript.js:185`) while the peer calls
`dispatch(record)` with the whole record object (`contentScript.js:105`). -/
inductive DispatchCall where
  | packed (record : Record) : DispatchCall
  | unpacked (type : String) (payload : JsVal) : DispatchCall

/-- A hub-side connection handle (spec §3 "Connection"): the runtime port
identity (`id`, used to address `postMessage` targets in the event log), its
`name` (a JS value that need not be a string, hence `Option`), and the two
echo-tracking lists initialized empty at `backgroundScript.js:146-147`. -/
structure Connection where
  id : Nat
  name : Option (List Char)
  receivedMutations : List Record
  receivedActions : List Record

/-- Hub state: the connection registry (`backgroundScript.js:15`) and the local
`store.state`. -/
structure HubState where
  connections : List Connection
  storeState : Obj

/-- Observable effects of a hub step, in execution order. -/
inductive HubEvent where
  | post (connId : Nat) (msg : Msg) : HubEvent
  | logError : HubEvent
  | save (data : Obj) : HubEvent
  | commit (type : String) (payload : JsVal) : HubEvent
  | dispatchCall (call : DispatchCall) : HubEvent

/-- The transport: `postMessage` to connection `connId` either succeeds or
throws, as decided by the failure oracle. -/
def hubPost (oracle : Nat → Msg → Bool) (connId : Nat) (m : Msg) :
    Except TransportError Unit :=
  if oracle connId m then .error .postFailed else .ok ()

namespace BackgroundScript

/-- `BackgroundScript.sendMutation` (`backgroundScript.js:206-217`): the
`postMessage` is wrapped in try/catch; a throw is logged and swallowed. -/
def sendMutation (oracle : Nat → Msg → Bool) (connection : Connection)
    (mutation : Record) : Except TransportError (List HubEvent) :=
  match hubPost oracle connection.id (Msg.mutationSync mutation) with
  | .ok _ => .ok [HubEvent.post connection.id (Msg.mutationSync mutation)]
  | .error _ => .ok [HubEvent.logError]

/-- `BackgroundScript.sendAction` (`backgroundScript.js:219-230`), same
try/catch discipline. -/
def sendAction (oracle : Nat → Msg → Bool) (connection : Connection)
    (action : Record) : Except TransportError (List HubEvent) :=
  match hubPost oracle connection.id (Msg.actionSync action) with
  | .ok _ => .ok [HubEvent.post connection.id (Msg.actionSync action)]
  | .error _ => .ok [HubEvent.logError]

/-- `BackgroundScript.syncCurrentState` (`backgroundScript.js:195-204`), same
try/catch discipline around the `@@STORE_SYNC_STATE` post. -/
def syncCurrentState (oracle : Nat → Msg → Bool) (connection : Connection)
    (state : Obj) : Except TransportError (List HubEvent) :=
  match hubPost oracle connection.id (Msg.syncState state) with
  | .ok _ => .ok [HubEvent.post connection.id (Msg.syncState state)]
  | .error _ => .ok [HubEvent.logError]

/-- The body of the `connections.forEach` in the mutation subscriber
(`backgroundScript.js:57-80`): skip non-protocol names, otherwise run the
backward echo scan; on a match remove the entry and skip the send, else send. -/
def relayMutationToConn (oracle : Nat → Msg → Bool) (mutation : Record)
    (connection : Connection) : Except TransportError (Connection × List HubEvent) :=
  if !validConnectionName connection.name then
    .ok (connection, [])
  else
    match removeLastMatch (fun r => mutationMatches r mutation)
        connection.receivedMutations with
    | some rest => .ok ({ connection with receivedMutations := rest }, [])
    | none => (sendMutation oracle connection mutation).map ((connection, ·))

/-- The `connections.forEach` loop of the mutation subscriber, over the whole
registry in order. -/
def relayMutationConns (oracle : Nat → Msg → Bool) (mutation : Record) :
    List Connection → Except TransportError (List Connection × List HubEvent)
  | [] => .ok ([], [])
  | c :: cs => do
    let (c', evs) ← relayMutationToConn oracle mutation c
    let (cs', evs') ← relayMutationConns oracle mutation cs
    .ok (c' :: cs', evs ++ evs')

/-- The mutation subscriber registered in the constructor
(`backgroundScript.js:45-84`): the ignored-mutations early return, the relay
pass over all connections, then the unconditional
`browser.savePersistentStates(filterObject(store.state, persistentStates))`. -/
def hookMutation (oracle : Nat → Msg → Bool) (settings : Settings)
    (st : HubState) (mutation : Record) :
    Except TransportError (HubState × List HubEvent) :=
  if decide (settings.ignoredMutations.length > 0) &&
      settings.ignoredMutations.contains mutation.type then
    .ok (st, [])
  else do
    let (conns', evs) ← relayMutationConns oracle mutation st.connections
    .ok ({ st with connections := conns' },
      evs ++ [HubEvent.save (filterObject st.storeState settings.persistentStates)])

/-- The body of the `connections.forEach` in the action subscriber
(`backgroundScript.js:103-126`): same structure as for mutations, but the echo
scan compares the `type` field only (`backgroundScript.js:114`). -/
def relayActionToConn (oracle : Nat → Msg → Bool) (action : Record)
    (connection : Connection) : Except TransportError (Connection × List HubEvent) :=
  if !validConnectionName connection.name then
    .ok (connection, [])
  else
    match removeLastMatch (fun r => r.type == action.type)
        connection.receivedActions with
    | some rest => .ok ({ connection with receivedActions := rest }, [])
    | none => (sendAction oracle connection action).map ((connection, ·))

/-- The `connections.forEach` loop of the action subscriber. -/
def relayActionConns (oracle : Nat → Msg → Bool) (action : Record) :
    List Connection → Except TransportError (List Connection × List HubEvent)
  | [] => .ok ([], [])
  | c :: cs => do
    let (c', evs) ← relayActionToConn oracle action c
    let (cs', evs') ← relayActionConns oracle action cs
    .ok (c' :: cs', evs ++ evs')

/-- The action subscriber registered via `store.subscribeAction`
(`backgroundScript.js:91-127`): ignored-actions early return, then the relay
pass; no persistence step. -/
def hookAction (oracle : Nat → Msg → Bool) (settings : Settings)
    (st : HubState) (action : Record) :
    Except TransportError (HubState × List HubEvent) :=
  if decide (settings.ignoredActions.length > 0) &&
      settings.ignoredActions.contains action.type then
    .ok (st, [])
  else do
    let (conns', evs) ← relayActionConns oracle action st.connections
    .ok ({ st with connections := conns' }, evs)

/-- `store.commit(type, payload)` at the hub: the store applies the mutation
(its semantics are the external collaborator parameter `applyMutation`), and
the subscription hook runs synchronously before `commit` returns (spec §5). -/
def commit (applyMutation : String → JsVal → Obj → Obj)
    (oracle : Nat → Msg → Bool) (settings : Settings) (st : HubState)
    (type : String) (payload : JsVal) :
    Except TransportError (HubState × List HubEvent) := do
  let stApplied := { st with storeState := applyMutation type payload st.storeState }
  let (st', evs) ← hookMutation oracle settings stApplied { type := type, payload := payload }
  .ok (st', HubEvent.commit type payload :: evs)

/-- `connection.receivedMutations.push(message.data)` (`backgroundScript.js:177`),
addressing the connection by port identity. -/
def pushReceivedMutation (connId : Nat) (r : Record) (conns : List Connection) :
    List Connection :=
  conns.map fun c =>
    if c.id == connId then { c with receivedMutations := c.receivedMutations ++ [r] } else c

/-- `connection.receivedActions.push(message.data)` (`backgroundScript.js:184`). -/
def pushReceivedAction (connId : Nat) (r : Record) (conns : List Connection) :
    List Connection :=
  conns.map fun c =>
    if c.id == connId then { c with receivedActions := c.receivedActions ++ [r] } else c

/-- `BackgroundScript.onMessage` (`backgroundScript.js:169-193`): a mutation
sync is appended to the origin's `receivedMutations` and committed (which runs
the relay pass synchronously); an action sync is appended to `receivedActions`
and dispatched with `(type, payload)` as two arguments; an
`@@STORE_SYNC_STATE` falls into the `default` branch and is ignored. -/
def onMessage (applyMutation : String → JsVal → Obj → Obj)
    (oracle : Nat → Msg → Bool) (settings : Settings) (st : HubState)
    (connId : Nat) (message : Msg) :
    Except TransportError (HubState × List HubEvent) :=
  match message with
  | .mutationSync data =>
    let st' := { st with connections := pushReceivedMutation connId data st.connections }
    commit applyMutation oracle settings st' data.type data.payload
  | .actionSync data =>
    let st' := { st with connections := pushReceivedAction connId data st.connections }
    .ok (st', [HubEvent.dispatchCall (DispatchCall.unpacked data.type data.payload)])
  | .syncState _ => .ok (st, [])

end BackgroundScript

/-- Peer-agent state (`contentScript.js:18-22`), in declaration order:
`receivedMutations`, `receivedActions`, `initialized`, `pendingMutations`,
`pendingActions`. -/
structure PeerState where
  receivedMutations : List Record
  receivedActions : List Record
  initialized : Bool
  pendingMutations : List Record
  pendingActions : List Record

/-- Observable effects of a peer step, in execution order.  The peer has a
single connection, so posts carry no target. -/
inductive PeerEvent where
  | post (msg : Msg) : PeerEvent
  | commit (type : String) (payload : JsVal) : PeerEvent
  | dispatchCall (call : DispatchCall) : PeerEvent

/-- The peer's transport: `connection.postMessage` either succeeds or throws,
as decided by the failure oracle. -/
def peerPost (oracle : Msg → Bool) (m : Msg) : Except TransportError Unit :=
  if oracle m then .error .postFailed else .ok ()

namespace ContentScript

/-- `ContentScript.sendMutation` (`contentScript.js:203-210`): a bare
`postMessage` with no try/catch, so a throw propagates to the caller. -/
def sendMutation (oracle : Msg → Bool) (mutation : Record) :
    Except TransportError (List PeerEvent) :=
  (peerPost oracle (Msg.mutationSync mutation)).map fun _ =>
    [PeerEvent.post (Msg.mutationSync mutation)]

/-- `ContentScript.sendAction` (`contentScript.js:217-224`): likewise a bare
`postMessage`, no try/catch. -/
def sendAction (oracle : Msg → Bool) (action : Record) :
    Except TransportError (List PeerEvent) :=
  (peerPost oracle (Msg.actionSync action)).map fun _ =>
    [PeerEvent.post (Msg.actionSync action)]

/-- `ContentScript.hookMutation` (`contentScript.js:120-158`): reserved
`vweReplaceState` early return; ignored-mutations early return; enqueue on
`pendingMutations` while uninitialized; send when `receivedMutations` is
empty; otherwise first-match echo scan by type + stringified payload. -/
def hookMutation (oracle : Msg → Bool) (settings : Settings) (st : PeerState)
    (mutation : Record) : Except TransportError (PeerState × List PeerEvent) :=
  if mutation.type == "vweReplaceState" then
    .ok (st, [])
  else if decide (settings.ignoredMutations.length > 0) &&
      settings.ignoredMutations.contains mutation.type then
    .ok (st, [])
  else if !st.initialized then
    .ok ({ st with pendingMutations := st.pendingMutations ++ [mutation] }, [])
  else if decide (st.receivedMutations.length = 0) then
    (sendMutation oracle mutation).map ((st, ·))
  else
    match removeFirstMatch (fun m => mutationMatches m mutation) st.receivedMutations with
    | some rest => .ok ({ st with receivedMutations := rest }, [])
    | none => (sendMutation oracle mutation).map ((st, ·))

/-- `ContentScript.hookAction` (`contentScript.js:165-196`): no reserved-type
exception; ignored-actions early return; enqueue on `pendingActions` while
uninitialized; send when `receivedActions` is empty; otherwise first-match
echo scan — note `contentScript.js:189` compares type AND stringified payload. -/
def hookAction (oracle : Msg → Bool) (settings : Settings) (st : PeerState)
    (action : Record) : Except TransportError (PeerState × List PeerEvent) :=
  if decide (settings.ignoredActions.length > 0) &&
      settings.ignoredActions.contains action.type then
    .ok (st, [])
  else if !st.initialized then
    .ok ({ st with pendingActions := st.pendingActions ++ [action] }, [])
  else if decide (st.receivedActions.length = 0) then
    (sendAction oracle action).map ((st, ·))
  else
    match removeFirstMatch
        (fun a => a.type == action.type && stringify a.payload == stringify action.payload)
        st.receivedActions with
    | some rest => .ok ({ st with receivedActions := rest }, [])
    | none => (sendAction oracle action).map ((st, ·))

/-- `store.commit(type, payload)` at the peer: the commit is recorded and the
subscription hook (`contentScript.js:34-36`) runs synchronously before
`commit` returns (spec §5). -/
def commit (oracle : Msg → Bool) (settings : Settings) (st : PeerState)
    (type : String) (payload : JsVal) :
    Except TransportError (PeerState × List PeerEvent) := do
  let (st', evs) ← hookMutation oracle settings st { type := type, payload := payload }
  .ok (st', PeerEvent.commit type payload :: evs)

/-- The `while` loop of `processPendingMutations` (`contentScript.js:238-242`),
shifting and committing one queued mutation per iteration.  The loop is
modelled with fuel equal to the queue length at entry; that fuel is exact
whenever `initialized` is true, which holds at the only call site (the
state-sync handler sets `initialized` before draining), because the hooks
re-triggered by the drain's commits never touch `pendingMutations` once
`initialized` is true. -/
def processPendingMutationsAux (oracle : Msg → Bool) (settings : Settings) :
    Nat → PeerState → Except TransportError (PeerState × List PeerEvent)
  | 0, st => .ok (st, [])
  | fuel + 1, st =>
    match st.pendingMutations with
    | [] => .ok (st, [])
    | m :: rest => do
      let (st1, evs1) ← commit oracle settings { st with pendingMutations := rest }
        m.type m.payload
      let (st2, evs2) ← processPendingMutationsAux oracle settings fuel st1
      .ok (st2, evs1 ++ evs2)

/-- `ContentScript.processPendingMutations` (`contentScript.js:230-243`). -/
def processPendingMutations (oracle : Msg → Bool) (settings : Settings)
    (st : PeerState) : Except TransportError (PeerState × List PeerEvent) :=
  processPendingMutationsAux oracle settings st.pendingMutations.length st

/-- The `while` loop of `processPendingActions` (`contentScript.js:257-261`):
each queued action is dispatched with `(type, payload)`.  Dispatches resolve
through the store (spec §3: possibly asynchronously) and are modelled as call
events. -/
def processPendingActionsAux :
    Nat → PeerState → PeerState × List PeerEvent
  | 0, st => (st, [])
  | fuel + 1, st =>
    match st.pendingActions with
    | [] => (st, [])
    | a :: rest =>
      let (st2, evs2) := processPendingActionsAux fuel { st with pendingActions := rest }
      (st2, PeerEvent.dispatchCall (DispatchCall.unpacked a.type a.payload) :: evs2)

/-- `ContentScript.processPendingActions` (`contentScript.js:249-262`). -/
def processPendingActions (st : PeerState) : PeerState × List PeerEvent :=
  processPendingActionsAux st.pendingActions.length st

/-- `ContentScript.onMessage` (`contentScript.js:61-113`).
`@@STORE_SYNC_STATE`: commit the reserved `vweReplaceState` with the full
state, set `initialized`, drain `pendingMutations` (and only that queue —
`processPendingActions` is not called).  `@@STORE_SYNC_MUTATION` /
`@@STORE_SYNC_ACTION`: dropped while uninitialized; otherwise appended to the
corresponding echo list and committed / dispatched — the dispatch receives the
whole record as its single argument (`contentScript.js:105`). -/
def onMessage (oracle : Msg → Bool) (settings : Settings) (st : PeerState)
    (message : Msg) : Except TransportError (PeerState × List PeerEvent) :=
  match message with
  | .syncState data => do
    let (st1, evs1) ← commit oracle settings st "vweReplaceState" (JsVal.obj data)
    let st2 := { st1 with initialized := true }
    let (st3, evs2) ← processPendingMutations oracle settings st2
    .ok (st3, evs1 ++ evs2)
  | .mutationSync data =>
    if !st.initialized then
      .ok (st, [])
    else
      commit oracle settings
        { st with receivedMutations := st.receivedMutations ++ [data] }
        data.type data.payload
  | .actionSync data =>
    if !st.initialized then
      .ok (st, [])
    else
      .ok ({ st with receivedActions := st.receivedActions ++ [data] },
        [PeerEvent.dispatchCall (DispatchCall.packed data)])

end ContentScript

/-- A transport that never throws (peer side). -/
def noFail : Msg → Bool := fun _ => false

/-- A transport that never throws (hub side). -/
def hubNoFail : Nat → Msg → Bool := fun _ _ => false

/-- A transport whose every `postMessage` throws (peer side). -/
def failAll : Msg → Bool := fun _ => true

/-- The messages posted to connection `i` within a hub event trace. -/
def postsTo (i : Nat) (evs : List HubEvent) : List Msg :=
  evs.filterMap fun e =>
    match e with
    | HubEvent.post j msg => if j == i then some msg else none
    | _ => none

/-- Projection of a peer event trace onto `store.commit` calls. -/
def commitProj : PeerEvent → Option (String × JsVal)
  | PeerEvent.commit t p => some (t, p)
  | _ => none

/-- Projection of a peer event trace onto `store.dispatch` calls. -/
def dispatchProj : PeerEvent → Option DispatchCall
  | PeerEvent.dispatchCall c => some c
  | _ => none

/-- Projection of a hub event trace onto `savePersistentStates` calls. -/
def saveProj : HubEvent → Option Obj
  | HubEvent.save o => some o
  | _ => none

/-! ### Properties of the echo-scan primitives -/

theorem removeFirstMatch_eq_none {p : Record → Bool} :
    ∀ {l : List Record}, (∀ x ∈ l, p x = false) → removeFirstMatch p l = none
  | [], _ => rfl
  | x :: xs, h => by
    have hx : p x = false := h x (List.mem_cons_self x xs)
    have hxs : removeFirstMatch p xs = none :=
      removeFirstMatch_eq_none fun y hy => h y (List.mem_cons_of_mem x hy)
    simp [removeFirstMatch, hx, hxs]

theorem removeFirstMatch_append {p : Record → Bool} {e : Record}
    (l₂ : List Record) (he : p e = true) :
    ∀ {l₁ : List Record}, (∀ x ∈ l₁, p x = false) →
      removeFirstMatch p (l₁ ++ e :: l₂) = some (l₁ ++ l₂)
  | [], _ => by simp [removeFirstMatch, he]
  | x :: xs, h => by
    have hx : p x = false := h x (List.mem_cons_self x xs)
    have hxs := removeFirstMatch_append l₂ he
      (fun y hy => h y (List.mem_cons_of_mem x hy) : ∀ y ∈ xs, p y = false)
    simp [removeFirstMatch, hx, hxs]

theorem removeFirstMatch_length {p : Record → Bool} :
    ∀ {l l' : List Record}, removeFirstMatch p l = some l' → l.length = l'.length + 1
  | [], _, h => by simp [removeFirstMatch] at h
  | x :: xs, l', h => by
    by_cases hx : p x = true
    · simp [removeFirstMatch, hx] at h
      simp [← h]
    · simp [removeFirstMatch, hx] at h
      obtain ⟨ys, hys, rfl⟩ := h
      simp [removeFirstMatch_length hys]

theorem removeLastMatch_eq_none {p : Record → Bool} :
    ∀ {l : List Record}, (∀ x ∈ l, p x = false) → removeLastMatch p l = none
  | [], _ => rfl
  | x :: xs, h => by
    have hx : p x = false := h x (List.mem_cons_self x xs)
    have hxs : removeLastMatch p xs = none :=
      removeLastMatch_eq_none fun y hy => h y (List.mem_cons_of_mem x hy)
    simp [removeLastMatch, hx, hxs]

theorem removeLastMatch_append (p : Record → Bool) (e : Record) (l₂ : List Record)
    (he : p e = true) (h₂ : ∀ x ∈ l₂, p x = false) :
    ∀ l₁ : List Record, removeLastMatch p (l₁ ++ e :: l₂) = some (l₁ ++ l₂)
  | [] => by simp [removeLastMatch, removeLastMatch_eq_none h₂, he]
  | x :: xs => by
    have hxs := removeLastMatch_append p e l₂ he h₂ xs
    simp [removeLastMatch, hxs]

theorem removeLastMatch_length {p : Record → Bool} :
    ∀ {l l' : List Record}, removeLastMatch p l = some l' → l.length = l'.length + 1
  | [], _, h => by simp [removeLastMatch] at h
  | x :: xs, l', h => by
    rcases hxs : removeLastMatch p xs with _ | ys
    · by_cases hx : p x = true
      · simp [removeLastMatch, hxs, hx] at h
        simp [← h]
      · simp [removeLastMatch, hxs, hx] at h
    · simp [removeLastMatch, hxs] at h
      subst h
      simp [removeLastMatch_length hxs]

theorem mutationMatches_self (r : Record) : mutationMatches r r = true := by
  simp [mutationMatches]

/-! ### Hub-side helper lemmas -/

theorem sendMutation_eq (oracle : Nat → Msg → Bool) (c : Connection) (m : Record) :
    BackgroundScript.sendMutation oracle c m =
      .ok (if oracle c.id (Msg.mutationSync m) = true then [HubEvent.logError]
        else [HubEvent.post c.id (Msg.mutationSync m)]) := by
  by_cases h : oracle c.id (Msg.mutationSync m) = true <;>
    simp [BackgroundScript.sendMutation, hubPost, h]

theorem sendAction_eq (oracle : Nat → Msg → Bool) (c : Connection) (a : Record) :
    BackgroundScript.sendAction oracle c a =
      .ok (if oracle c.id (Msg.actionSync a) = true then [HubEvent.logError]
        else [HubEvent.post c.id (Msg.actionSync a)]) := by
  by_cases h : oracle c.id (Msg.actionSync a) = true <;>
    simp [BackgroundScript.sendAction, hubPost, h]

theorem syncCurrentState_eq (oracle : Nat → Msg → Bool) (c : Connection) (s : Obj) :
    BackgroundScript.syncCurrentState oracle c s =
      .ok (if oracle c.id (Msg.syncState s) = true then [HubEvent.logError]
        else [HubEvent.post c.id (Msg.syncState s)]) := by
  by_cases h : oracle c.id (Msg.syncState s) = true <;>
    simp [BackgroundScript.syncCurrentState, hubPost, h]

theorem relayMutationToConn_spec (oracle : Nat → Msg → Bool) (m : Record)
    (c : Connection) :
    ∃ c' evs, BackgroundScript.relayMutationToConn oracle m c = .ok (c', evs) ∧
      c'.id = c.id ∧ c'.name = c.name ∧ c'.receivedActions = c.receivedActions ∧
      (∀ e ∈ evs, saveProj e = none) ∧
      (∀ j msg, HubEvent.post j msg ∈ evs → j = c.id) := by
  unfold BackgroundScript.relayMutationToConn
  by_cases hv : validConnectionName c.name = true
  · rcases hrm : removeLastMatch (fun r => mutationMatches r m) c.receivedMutations
      with _ | rest
    · rw [sendMutation_eq]
      by_cases ho : oracle c.id (Msg.mutationSync m) = true
      · exact ⟨c, [HubEvent.logError],
          by simp [hv, hrm, ho, Except.map], rfl, rfl, rfl,
          by simp [saveProj], by simp⟩
      · exact ⟨c, [HubEvent.post c.id (Msg.mutationSync m)],
          by simp [hv, hrm, ho, Except.map], rfl, rfl, rfl,
          by simp [saveProj], by simp⟩
    · exact ⟨{ c with receivedMutations := rest }, [], by simp [hv, hrm], rfl, rfl,
        rfl, by simp, by simp⟩
  · exact ⟨c, [], by simp [Bool.not_eq_true _ ▸ hv], rfl, rfl, rfl, by simp, by simp⟩

theorem relayActionToConn_spec (oracle : Nat → Msg → Bool) (a : Record)
    (c : Connection) :
    ∃ c' evs, BackgroundScript.relayActionToConn oracle a c = .ok (c', evs) ∧
      c'.id = c.id ∧ c'.name = c.name ∧ c'.receivedMutations = c.receivedMutations ∧
      (∀ e ∈ evs, saveProj e = none) ∧
      (∀ j msg, HubEvent.post j msg ∈ evs → j = c.id) := by
  unfold BackgroundScript.relayActionToConn
  by_cases hv : validConnectionName c.name = true
  · rcases hra : removeLastMatch (fun r => r.type == a.type) c.receivedActions
      with _ | rest
    · rw [sendAction_eq]
      by_cases ho : oracle c.id (Msg.actionSync a) = true
      · exact ⟨c, [HubEvent.logError],
          by simp [hv, hra, ho, Except.map], rfl, rfl, rfl,
          by simp [saveProj], by simp⟩
      · exact ⟨c, [HubEvent.post c.id (Msg.actionSync a)],
          by simp [hv, hra, ho, Except.map], rfl, rfl, rfl,
          by simp [saveProj], by simp⟩
    · exact ⟨{ c with receivedActions := rest }, [], by simp [hv, hra], rfl, rfl,
        rfl, by simp, by simp⟩
  · exact ⟨c, [], by simp [Bool.not_eq_true _ ▸ hv], rfl, rfl, rfl, by simp, by simp⟩

theorem relayMutationConns_spec (oracle : Nat → Msg → Bool) (m : Record) :
    ∀ l : List Connection,
      ∃ l' evs, BackgroundScript.relayMutationConns oracle m l = .ok (l', evs) ∧
        (∀ e ∈ evs, saveProj e = none)
  | [] => ⟨[], [], rfl, by simp⟩
  | c :: cs => by
    obtain ⟨c', evs, he, _, _, _, hs, _⟩ := relayMutationToConn_spec oracle m c
    obtain ⟨cs', evs', he', hs'⟩ := relayMutationConns_spec oracle m cs
    refine ⟨c' :: cs', evs ++ evs', ?_, ?_⟩
    · simp [BackgroundScript.relayMutationConns, he, he', Bind.bind, Except.bind]
    · intro e hmem
      rcases List.mem_append.mp hmem with h | h
      · exact hs e h
      · exact hs' e h

theorem relayActionConns_spec (oracle : Nat → Msg → Bool) (a : Record) :
    ∀ l : List Connection,
      ∃ l' evs, BackgroundScript.relayActionConns oracle a l = .ok (l', evs) ∧
        (∀ e ∈ evs, saveProj e = none)
  | [] => ⟨[], [], rfl, by simp⟩
  | c :: cs => by
    obtain ⟨c', evs, he, _, _, _, hs, _⟩ := relayActionToConn_spec oracle a c
    obtain ⟨cs', evs', he', hs'⟩ := relayActionConns_spec oracle a cs
    refine ⟨c' :: cs', evs ++ evs', ?_, ?_⟩
    · simp [BackgroundScript.relayActionConns, he, he', Bind.bind, Except.bind]
    · intro e hmem
      rcases List.mem_append.mp hmem with h | h
      · exact hs e h
      · exact hs' e h

/-- The hub's mutation subscriber never propagates an error, whatever the
transport does: the relay pass ends with the unconditional persistence call,
and every pre-save event comes from `sendMutation`, which swallows throws. -/
theorem hubHookMutation_save_spec (oracle : Nat → Msg → Bool) (settings : Settings)
    (st : HubState) (m : Record)
    (hign : settings.ignoredMutations.contains m.type = false) :
    ∃ conns' evs, BackgroundScript.hookMutation oracle settings st m =
      .ok ({ st with connections := conns' },
        evs ++ [HubEvent.save (filterObject st.storeState settings.persistentStates)]) ∧
      (∀ e ∈ evs, saveProj e = none) := by
  have hmem : m.type ∉ settings.ignoredMutations := by simpa using hign
  obtain ⟨l', evs, he, hs⟩ := relayMutationConns_spec oracle m st.connections
  exact ⟨l', evs,
    by simp [BackgroundScript.hookMutation, hmem, he, Bind.bind, Except.bind], hs⟩

theorem hubHookMutation_isOk (oracle : Nat → Msg → Bool) (settings : Settings)
    (st : HubState) (m : Record) :
    ∃ r, BackgroundScript.hookMutation oracle settings st m = .ok r := by
  unfold BackgroundScript.hookMutation
  by_cases hg : 0 < settings.ignoredMutations.length ∧
      m.type ∈ settings.ignoredMutations
  · exact ⟨(st, []), by simp [hg]⟩
  · obtain ⟨l', evs, he, _⟩ := relayMutationConns_spec oracle m st.connections
    exact ⟨({ st with connections := l' },
        evs ++ [HubEvent.save (filterObject st.storeState settings.persistentStates)]),
      by simp [hg, he, Bind.bind, Except.bind]⟩

theorem hubHookAction_isOk (oracle : Nat → Msg → Bool) (settings : Settings)
    (st : HubState) (a : Record) :
    ∃ r, BackgroundScript.hookAction oracle settings st a = .ok r := by
  unfold BackgroundScript.hookAction
  by_cases hg : 0 < settings.ignoredActions.length ∧
      a.type ∈ settings.ignoredActions
  · exact ⟨(st, []), by simp [hg]⟩
  · obtain ⟨l', evs, he, _⟩ := relayActionConns_spec oracle a st.connections
    exact ⟨({ st with connections := l' }, evs),
      by simp [hg, he, Bind.bind, Except.bind]⟩

theorem hubCommit_isOk (applyMutation : String → JsVal → Obj → Obj)
    (oracle : Nat → Msg → Bool) (settings : Settings) (st : HubState)
    (t : String) (p : JsVal) :
    ∃ r, BackgroundScript.commit applyMutation oracle settings st t p = .ok r := by
  obtain ⟨⟨st', evs⟩, he⟩ := hubHookMutation_isOk oracle settings
    { st with storeState := applyMutation t p st.storeState } ⟨t, p⟩
  exact ⟨(st', HubEvent.commit t p :: evs),
    by simp [BackgroundScript.commit, he, Bind.bind, Except.bind]⟩

theorem hubOnMessage_isOk (applyMutation : String → JsVal → Obj → Obj)
    (oracle : Nat → Msg → Bool) (settings : Settings) (st : HubState)
    (connId : Nat) (message : Msg) :
    ∃ r, BackgroundScript.onMessage applyMutation oracle settings st connId message
      = .ok r := by
  rcases message with data | data | data
  · exact ⟨(st, []), rfl⟩
  · exact hubCommit_isOk applyMutation oracle settings _ data.type data.payload
  · exact ⟨_, rfl⟩

/-! ### Peer-side helper lemmas -/

theorem peer_sendMutation_noFail (m : Record) :
    ContentScript.sendMutation noFail m = .ok [PeerEvent.post (Msg.mutationSync m)] := rfl

theorem peer_sendAction_noFail (a : Record) :
    ContentScript.sendAction noFail a = .ok [PeerEvent.post (Msg.actionSync a)] := rfl

/-- Once `initialized` is true, `hookMutation` (with a non-throwing transport)
only ever edits `receivedMutations` and emits posts: the pending queues,
`initialized`, and `receivedActions` are untouched, and no commit or dispatch
is issued from the hook itself. -/
theorem peer_hookMutation_initialized_spec (settings : Settings) (st : PeerState)
    (m : Record) (hinit : st.initialized = true) :
    ∃ rm evs, ContentScript.hookMutation noFail settings st m =
      .ok ({ st with receivedMutations := rm }, evs) ∧
      (∀ e ∈ evs, commitProj e = none) ∧ (∀ e ∈ evs, dispatchProj e = none) := by
  obtain ⟨rm0, ra0, ini0, pm0, pa0⟩ := st
  have hinit' : ini0 = true := hinit
  subst hinit'
  unfold ContentScript.hookMutation
  by_cases hres : m.type == "vweReplaceState"
  · exact ⟨rm0, [], by simp [hres], by simp, by simp⟩
  · by_cases hg : 0 < settings.ignoredMutations.length ∧
        m.type ∈ settings.ignoredMutations
    · exact ⟨rm0, [], by simp [hres, hg], by simp, by simp⟩
    · by_cases hlen : rm0.length = 0
      · exact ⟨rm0, [PeerEvent.post (Msg.mutationSync m)],
          by simp [hres, hg, hlen, peer_sendMutation_noFail, Except.map],
          by simp [commitProj], by simp [dispatchProj]⟩
      · rcases hrm : removeFirstMatch (fun r => mutationMatches r m) rm0 with _ | rest
        · exact ⟨rm0, [PeerEvent.post (Msg.mutationSync m)],
            by simp [hres, hg, hlen, hrm, peer_sendMutation_noFail, Except.map],
            by simp [commitProj], by simp [dispatchProj]⟩
        · exact ⟨rest, [],
            by simp [hres, hg, hlen, hrm], by simp, by simp⟩

/-- Before initialization, a non-reserved, non-ignored mutation is queued on
`pendingMutations` and nothing else happens (`contentScript.js:137-142`). -/
theorem peer_hookMutation_preinit (settings : Settings) (st : PeerState)
    (m : Record) (hinit : st.initialized = false)
    (hres : m.type ≠ "vweReplaceState")
    (hign : settings.ignoredMutations.contains m.type = false) :
    ContentScript.hookMutation noFail settings st m =
      .ok ({ st with pendingMutations := st.pendingMutations ++ [m] }, []) := by
  have hmem : m.type ∉ settings.ignoredMutations := by simpa using hign
  simp [ContentScript.hookMutation, hres, hmem, hinit]

/-- An initialized peer with an empty `receivedMutations` list sends every
non-reserved, non-ignored hooked mutation (`contentScript.js:145-148`). -/
theorem peer_hookMutation_send (settings : Settings) (st : PeerState)
    (m : Record) (hinit : st.initialized = true)
    (hempty : st.receivedMutations = [])
    (hres : m.type ≠ "vweReplaceState")
    (hign : settings.ignoredMutations.contains m.type = false) :
    ContentScript.hookMutation noFail settings st m =
      .ok (st, [PeerEvent.post (Msg.mutationSync m)]) := by
  have hmem : m.type ∉ settings.ignoredMutations := by simpa using hign
  simp [ContentScript.hookMutation, hres, hmem, hinit, hempty,
    peer_sendMutation_noFail, Except.map]

/-- The general drain property of the `processPendingMutations` loop: with
`initialized` already true, the queue is fully drained in FIFO order, each
entry is committed with its own type and payload, no dispatch is issued, and
only `receivedMutations` (through the re-triggered hooks) changes besides the
queue. -/
theorem ppmAux_drain (settings : Settings) :
    ∀ (fuel : Nat) (st : PeerState), st.initialized = true →
      st.pendingMutations.length ≤ fuel →
      ∃ rm evs, ContentScript.processPendingMutationsAux noFail settings fuel st =
        .ok ({ st with pendingMutations := [], receivedMutations := rm }, evs) ∧
        evs.filterMap commitProj =
          st.pendingMutations.map (fun m => (m.type, m.payload)) ∧
        evs.filterMap dispatchProj = []
  | 0, ⟨rm0, ra0, ini0, pm0, pa0⟩, hinit, hlen => by
    have hinit' : ini0 = true := hinit
    subst hinit'
    have hnil : pm0 = [] := List.length_eq_zero.mp (Nat.le_zero.mp hlen)
    subst hnil
    exact ⟨rm0, [], by simp [ContentScript.processPendingMutationsAux], by simp, by simp⟩
  | fuel + 1, ⟨rm0, ra0, ini0, pm0, pa0⟩, hinit, hlen => by
    have hinit' : ini0 = true := hinit
    subst hinit'
    rcases pm0 with _ | ⟨m, rest⟩
    · exact ⟨rm0, [],
        by simp [ContentScript.processPendingMutationsAux], by simp, by simp⟩
    · obtain ⟨rm₁, evsH, hhook, hcomH, hdisH⟩ := peer_hookMutation_initialized_spec
        settings ⟨rm0, ra0, true, rest, pa0⟩ ⟨m.type, m.payload⟩ rfl
      obtain ⟨rm₂, evs₂, haux, hcom₂, hdis₂⟩ := ppmAux_drain settings fuel
        ⟨rm₁, ra0, true, rest, pa0⟩ rfl
        (Nat.succ_le_succ_iff.mp (by simpa using hlen))
      refine ⟨rm₂, (PeerEvent.commit m.type m.payload :: evsH) ++ evs₂, ?_, ?_, ?_⟩
      · simp [ContentScript.processPendingMutationsAux, ContentScript.commit,
          hhook, haux, Bind.bind, Except.bind]
      · have hH : evsH.filterMap commitProj = [] := List.filterMap_eq_nil_iff.mpr hcomH
        simpa [List.filterMap_append, hH, commitProj] using hcom₂
      · have hH : evsH.filterMap dispatchProj = [] := List.filterMap_eq_nil_iff.mpr hdisH
        simpa [List.filterMap_append, hH, dispatchProj] using hdis₂

/-- The exact drain trace when nothing was received before initialization:
every queued mutation is committed and then posted to the background as an
`@@STORE_SYNC_MUTATION`, because each commit re-runs `hookMutation` with
`initialized = true` and an empty `receivedMutations`. -/
theorem ppmAux_drain_sends (settings : Settings) :
    ∀ (fuel : Nat) (st : PeerState), st.initialized = true →
      st.receivedMutations = [] →
      (∀ m ∈ st.pendingMutations, m.type ≠ "vweReplaceState" ∧
        settings.ignoredMutations.contains m.type = false) →
      st.pendingMutations.length ≤ fuel →
      ContentScript.processPendingMutationsAux noFail settings fuel st =
        .ok ({ st with pendingMutations := [] },
          (st.pendingMutations.map fun m =>
            [PeerEvent.commit m.type m.payload,
             PeerEvent.post (Msg.mutationSync m)]).flatten)
  | 0, ⟨rm0, ra0, ini0, pm0, pa0⟩, hinit, hrm, hq, hlen => by
    have hinit' : ini0 = true := hinit
    subst hinit'
    have hnil : pm0 = [] := List.length_eq_zero.mp (Nat.le_zero.mp hlen)
    subst hnil
    simp [ContentScript.processPendingMutationsAux]
  | fuel + 1, ⟨rm0, ra0, ini0, pm0, pa0⟩, hinit, hrm, hq, hlen => by
    have hinit' : ini0 = true := hinit
    subst hinit'
    have hrm' : rm0 = [] := hrm
    subst hrm'
    rcases pm0 with _ | ⟨m, rest⟩
    · simp [ContentScript.processPendingMutationsAux]
    · have hqm := hq m (List.mem_cons_self m rest)
      have hhook := peer_hookMutation_send settings ⟨[], ra0, true, rest, pa0⟩
        ⟨m.type, m.payload⟩ rfl rfl hqm.1 hqm.2
      have haux := ppmAux_drain_sends settings fuel ⟨[], ra0, true, rest, pa0⟩
        rfl rfl (fun x hx => hq x (List.mem_cons_of_mem m hx))
        (Nat.succ_le_succ_iff.mp (by simpa using hlen))
      simp [ContentScript.processPendingMutationsAux, ContentScript.commit,
        hhook, haux, Bind.bind, Except.bind]

/-! ### Claim C1 -/

/-- C1, counterexample.  A peer with `{type: "inc", payload: null}` queued on
`pendingMutations` receives `@@STORE_SYNC_STATE`: the queued mutation is
committed, but — contrary to the claim that it "is never sent over the
connection" — the commit re-triggers `hookMutation` with `initialized = true`
and empty `receivedMutations`, whose empty-list branch sends it, so the
mutation-sync message appears on the wire. -/
theorem C1_counterexample :
    ContentScript.onMessage noFail ⟨"vuex-webextensions".toList, true, [], [], []⟩
      ⟨[], [], false, [⟨"inc", JsVal.null⟩], []⟩ (.syncState []) =
    .ok (⟨[], [], true, [], []⟩,
      [PeerEvent.commit "vweReplaceState" (JsVal.obj []),
       PeerEvent.commit "inc" JsVal.null,
       PeerEvent.post (Msg.mutationSync ⟨"inc", JsVal.null⟩)]) ∧
    PeerEvent.post (Msg.mutationSync ⟨"inc", JsVal.null⟩) ∈
      [PeerEvent.commit "vweReplaceState" (JsVal.obj []),
       PeerEvent.commit "inc" JsVal.null,
       PeerEvent.post (Msg.mutationSync ⟨"inc", JsVal.null⟩)] :=
  ⟨rfl, by simp⟩

/-- C1, amended.  A mutation hooked at a fresh uninitialized peer (not of the
reserved type, not ignored) is appended to `pendingMutations` and nothing is
sent; after `@@STORE_SYNC_STATE` arrives the queued mutation is committed
locally via ordinary commit, and — because that commit synchronously
re-triggers `hookMutation` with `initialized = true` and `receivedMutations`
still empty — it IS then sent over the connection as one
`@@STORE_SYNC_MUTATION` message. -/
theorem C1_amended_pending_replay_sends (settings : Settings) (m : Record)
    (data : Obj) (hres : m.type ≠ "vweReplaceState")
    (hign : settings.ignoredMutations.contains m.type = false) :
    ContentScript.hookMutation noFail settings ⟨[], [], false, [], []⟩ m =
      .ok (⟨[], [], false, [m], []⟩, []) ∧
    ContentScript.onMessage noFail settings ⟨[], [], false, [m], []⟩
      (.syncState data) =
    .ok (⟨[], [], true, [], []⟩,
      [PeerEvent.commit "vweReplaceState" (JsVal.obj data),
       PeerEvent.commit m.type m.payload,
       PeerEvent.post (Msg.mutationSync m)]) := by
  constructor
  · simpa using peer_hookMutation_preinit settings ⟨[], [], false, [], []⟩ m rfl hres hign
  · have haux := ppmAux_drain_sends settings 1 ⟨[], [], true, [m], []⟩ rfl rfl
      (fun x hx => by rcases List.mem_singleton.mp hx with rfl; exact ⟨hres, hign⟩)
      (le_refl _)
    simp [ContentScript.onMessage, ContentScript.commit, ContentScript.hookMutation,
      ContentScript.processPendingMutations, haux, Bind.bind, Except.bind]

/-- C1, witness for the amended theorem at a concrete input. -/
theorem C1_witness :
    ContentScript.hookMutation noFail ⟨"vuex-webextensions".toList, true, [], [], []⟩
      ⟨[], [], false, [], []⟩ ⟨"inc", JsVal.null⟩ =
      .ok (⟨[], [], false, [⟨"inc", JsVal.null⟩], []⟩, []) ∧
    ContentScript.onMessage noFail ⟨"vuex-webextensions".toList, true, [], [], []⟩
      ⟨[], [], false, [⟨"inc", JsVal.null⟩], []⟩ (.syncState []) =
    .ok (⟨[], [], true, [], []⟩,
      [PeerEvent.commit "vweReplaceState" (JsVal.obj []),
       PeerEvent.commit "inc" JsVal.null,
       PeerEvent.post (Msg.mutationSync ⟨"inc", JsVal.null⟩)]) :=
  C1_amended_pending_replay_sends ⟨"vuex-webextensions".toList, true, [], [], []⟩
    ⟨"inc", JsVal.null⟩ [] (by decide) rfl

/-! ### Claim C6 -/

/-- C6: on `@@STORE_SYNC_STATE` the peer commits the reserved
`vweReplaceState` mutation with the whole received state, sets
`initialized := true`, then drains `pendingMutations` in FIFO order committing
each entry with its own type and payload; no dispatch is ever issued by the
handler (`processPendingActions` is not invoked), and `pendingActions` is left
exactly as it was. -/
theorem C6_initial_state_sync_drain (settings : Settings) (st : PeerState)
    (data : Obj) :
    ∃ rm evs, ContentScript.onMessage noFail settings st (.syncState data) =
      .ok ({ st with initialized := true, pendingMutations := [], receivedMutations := rm }, evs) ∧
      ({ st with initialized := true, pendingMutations := [], receivedMutations := rm } : PeerState).pendingActions = st.pendingActions ∧
      evs.filterMap commitProj = ("vweReplaceState", JsVal.obj data) ::
        st.pendingMutations.map (fun m => (m.type, m.payload)) ∧
      evs.filterMap dispatchProj = [] := by
  obtain ⟨rm0, ra0, ini0, pm0, pa0⟩ := st
  obtain ⟨rm₂, evs₂, haux, hcom, hdis⟩ := ppmAux_drain settings pm0.length
    ⟨rm0, ra0, true, pm0, pa0⟩ rfl (le_refl _)
  refine ⟨rm₂, PeerEvent.commit "vweReplaceState" (JsVal.obj data) :: evs₂, ?_, rfl, ?_, ?_⟩
  · simp [ContentScript.onMessage, ContentScript.commit, ContentScript.hookMutation,
      ContentScript.processPendingMutations, haux, Bind.bind, Except.bind]
  · simpa [commitProj] using hcom
  · simpa [dispatchProj] using hdis

/-! ### Claim C4 -/

/-- C4, counterexample.  The peer's `sendMutation` has no try/catch
(`contentScript.js:203-210`): with a throwing transport, the hooked local
mutation at an initialized peer propagates the exception to the hook's caller
instead of swallowing it. -/
theorem C4_counterexample :
    ContentScript.hookMutation failAll ⟨"vuex-webextensions".toList, true, [], [], []⟩
      ⟨[], [], true, [], []⟩ ⟨"inc", JsVal.null⟩ = .error .postFailed := rfl

/-- C4, amended.  Hub-side send operations (`sendMutation`, `sendAction`,
`syncCurrentState`) catch a throwing `postMessage` at the call site and
swallow it, so no hub hook or message handler ever propagates a transport
error, for any failure pattern; the peer-side `sendMutation`/`sendAction`
have no such catch, so a throwing `postMessage` there propagates the
exception to the caller of the hook. -/
theorem C4_amended_error_handling (oracle : Nat → Msg → Bool) (pOracle : Msg → Bool)
    (applyMutation : String → JsVal → Obj → Obj) (settings : Settings)
    (st : HubState) (c : Connection) (connId : Nat) (message : Msg)
    (m a : Record) (s : Obj) (pst : PeerState)
    (hthrow : pOracle (Msg.mutationSync m) = true)
    (hthrowA : pOracle (Msg.actionSync a) = true)
    (hinit : pst.initialized = true) (hempty : pst.receivedMutations = [])
    (hres : m.type ≠ "vweReplaceState")
    (hign : settings.ignoredMutations.contains m.type = false) :
    (∃ r, BackgroundScript.sendMutation oracle c m = .ok r) ∧
    (∃ r, BackgroundScript.sendAction oracle c a = .ok r) ∧
    (∃ r, BackgroundScript.syncCurrentState oracle c s = .ok r) ∧
    (∃ r, BackgroundScript.hookMutation oracle settings st m = .ok r) ∧
    (∃ r, BackgroundScript.hookAction oracle settings st a = .ok r) ∧
    (∃ r, BackgroundScript.onMessage applyMutation oracle settings st connId message
      = .ok r) ∧
    ContentScript.sendMutation pOracle m = .error .postFailed ∧
    ContentScript.sendAction pOracle a = .error .postFailed ∧
    ContentScript.hookMutation pOracle settings pst m = .error .postFailed := by
  have hmem : m.type ∉ settings.ignoredMutations := by simpa using hign
  refine ⟨⟨_, sendMutation_eq oracle c m⟩, ⟨_, sendAction_eq oracle c a⟩,
    ⟨_, syncCurrentState_eq oracle c s⟩, hubHookMutation_isOk oracle settings st m,
    hubHookAction_isOk oracle settings st a,
    hubOnMessage_isOk applyMutation oracle settings st connId message, ?_, ?_, ?_⟩
  · simp [ContentScript.sendMutation, peerPost, hthrow, Except.map]
  · simp [ContentScript.sendAction, peerPost, hthrowA, Except.map]
  · simp [ContentScript.hookMutation, hres, hmem, hinit, hempty,
      ContentScript.sendMutation, peerPost, hthrow, Except.map]

/-- C4, witness for the amended theorem at concrete inputs. -/
theorem C4_witness :
    (∃ r, BackgroundScript.sendMutation hubNoFail ⟨0, none, [], []⟩ ⟨"inc", JsVal.null⟩
      = .ok r) ∧
    (∃ r, BackgroundScript.sendAction hubNoFail ⟨0, none, [], []⟩ ⟨"act", JsVal.null⟩
      = .ok r) ∧
    (∃ r, BackgroundScript.syncCurrentState hubNoFail ⟨0, none, [], []⟩ [] = .ok r) ∧
    (∃ r, BackgroundScript.hookMutation hubNoFail
      ⟨"vuex-webextensions".toList, true, [], [], []⟩ ⟨[], []⟩ ⟨"inc", JsVal.null⟩
      = .ok r) ∧
    (∃ r, BackgroundScript.hookAction hubNoFail
      ⟨"vuex-webextensions".toList, true, [], [], []⟩ ⟨[], []⟩ ⟨"act", JsVal.null⟩
      = .ok r) ∧
    (∃ r, BackgroundScript.onMessage (fun _ _ s => s) hubNoFail
      ⟨"vuex-webextensions".toList, true, [], [], []⟩ ⟨[], []⟩ 0
      (.mutationSync ⟨"inc", JsVal.null⟩) = .ok r) ∧
    ContentScript.sendMutation failAll ⟨"inc", JsVal.null⟩ = .error .postFailed ∧
    ContentScript.sendAction failAll ⟨"act", JsVal.null⟩ = .error .postFailed ∧
    ContentScript.hookMutation failAll ⟨"vuex-webextensions".toList, true, [], [], []⟩
      ⟨[], [], true, [], []⟩ ⟨"inc", JsVal.null⟩ = .error .postFailed :=
  C4_amended_error_handling hubNoFail failAll (fun _ _ s => s)
    ⟨"vuex-webextensions".toList, true, [], [], []⟩ ⟨[], []⟩ ⟨0, none, [], []⟩ 0
    (.mutationSync ⟨"inc", JsVal.null⟩) ⟨"inc", JsVal.null⟩ ⟨"act", JsVal.null⟩ []
    ⟨[], [], true, [], []⟩ rfl rfl rfl rfl (by decide) rfl

/-! ### Claim C3 -/

/-- C3, counterexample.  An initialized peer holds a received action of type
`"t"` (payload `1`); hooking a local action of the same type `"t"` but payload
`2` does NOT remove the entry and DOES send the action — the peer's
`hookAction` echo check (`contentScript.js:189`) compares payloads too,
contrary to the claim that it matches by type only. -/
theorem C3_counterexample :
    ContentScript.hookAction noFail ⟨"vuex-webextensions".toList, true, [], [], []⟩
      ⟨[], [⟨"t", JsVal.num 1⟩], true, [], []⟩ ⟨"t", JsVal.num 2⟩ =
      .ok (⟨[], [⟨"t", JsVal.num 1⟩], true, [], []⟩,
        [PeerEvent.post (Msg.actionSync ⟨"t", JsVal.num 2⟩)]) ∧
    ([⟨"t", JsVal.num 1⟩] : List Record) ≠ [] :=
  ⟨rfl, by simp⟩

/-- C3, amended.  At an initialized peer, `hookAction`'s echo check matches by
type AND stringified payload (exactly like the mutation check): an entry whose
type equals the hooked action's type but whose serialized payload differs does
not suppress the send, and the entry removed (when one is removed) is the
first entry matching on both components. -/
theorem C3_amended_action_echo_payload (settings : Settings) (st : PeerState)
    (a : Record) (hinit : st.initialized = true)
    (hign : settings.ignoredActions.contains a.type = false) :
    ((∀ e ∈ st.receivedActions,
        (e.type == a.type && stringify e.payload == stringify a.payload) = false) →
      ContentScript.hookAction noFail settings st a =
        .ok (st, [PeerEvent.post (Msg.actionSync a)])) ∧
    (∀ l₁ e l₂, st.receivedActions = l₁ ++ e :: l₂ →
      (∀ x ∈ l₁,
        (x.type == a.type && stringify x.payload == stringify a.payload) = false) →
      (e.type == a.type && stringify e.payload == stringify a.payload) = true →
      ContentScript.hookAction noFail settings st a =
        .ok ({ st with receivedActions := l₁ ++ l₂ }, [])) := by
  have hmem : a.type ∉ settings.ignoredActions := by simpa using hign
  obtain ⟨rm0, ra0, ini0, pm0, pa0⟩ := st
  have hinit' : ini0 = true := hinit
  subst hinit'
  constructor
  · intro hall
    rcases hra : ra0 with _ | ⟨x, xs⟩
    · simp [ContentScript.hookAction, hmem, peer_sendAction_noFail, Except.map]
    · have hnone := removeFirstMatch_eq_none (hra ▸ hall)
      simp [ContentScript.hookAction, hmem, hra, hnone,
        peer_sendAction_noFail, Except.map]
  · intro l₁ e l₂ heq h₁ he
    have hsome := removeFirstMatch_append l₂ he h₁
    have hlen : ¬((l₁ ++ e :: l₂).length = 0) := by simp
    simp only at heq
    subst heq
    simp [ContentScript.hookAction, hmem, hlen, hsome]

/-- C3, witness for the amended theorem at concrete inputs. -/
theorem C3_witness :
    ContentScript.hookAction noFail ⟨"vuex-webextensions".toList, true, [], [], []⟩
      ⟨[], [⟨"t", JsVal.num 1⟩], true, [], []⟩ ⟨"t", JsVal.num 2⟩ =
      .ok (⟨[], [⟨"t", JsVal.num 1⟩], true, [], []⟩,
        [PeerEvent.post (Msg.actionSync ⟨"t", JsVal.num 2⟩)]) ∧
    ContentScript.hookAction noFail ⟨"vuex-webextensions".toList, true, [], [], []⟩
      ⟨[], [⟨"t", JsVal.num 1⟩], true, [], []⟩ ⟨"t", JsVal.num 1⟩ =
      .ok (⟨[], [], true, [], []⟩, []) :=
  ⟨(C3_amended_action_echo_payload ⟨"vuex-webextensions".toList, true, [], [], []⟩
      ⟨[], [⟨"t", JsVal.num 1⟩], true, [], []⟩ ⟨"t", JsVal.num 2⟩ rfl rfl).1 (by decide),
   (C3_amended_action_echo_payload ⟨"vuex-webextensions".toList, true, [], [], []⟩
      ⟨[], [⟨"t", JsVal.num 1⟩], true, [], []⟩ ⟨"t", JsVal.num 1⟩ rfl rfl).2
     [] ⟨"t", JsVal.num 1⟩ [] rfl (by simp) (by decide)⟩

/-! ### Claim C5 -/

/-- C5, counterexample.  With `persistentStates = []`, a non-ignored local
mutation at the hub still ends with a `savePersistentStates` call (persisting
the empty filtered object) — `backgroundScript.js:83` is unconditional, so
"persists if and only if `persistentStates` is non-empty" fails in the
only-if direction. -/
theorem C5_counterexample :
    BackgroundScript.hookMutation hubNoFail ⟨"vuex-webextensions".toList, true, [], [], []⟩
      ⟨[], [("k", JsVal.num 1)]⟩ ⟨"inc", JsVal.null⟩ =
      .ok (⟨[], [("k", JsVal.num 1)]⟩, [HubEvent.save []]) ∧
    HubEvent.save [] ∈ [HubEvent.save []] :=
  ⟨rfl, by simp⟩

/-- C5, amended.  For every local mutation event at the hub whose type is not
ignored, the relay pass over all connections is followed by exactly one
`savePersistentStates` call, carrying the `persistentStates`-filtered subset
of the post-mutation state; the call happens unconditionally — also when
`persistentStates` is empty (then saving the empty object) — and is
independent of any connection's echo status and of transport failures. -/
theorem C5_amended_unconditional_persist (oracle : Nat → Msg → Bool)
    (settings : Settings) (st : HubState) (m : Record)
    (hign : settings.ignoredMutations.contains m.type = false) :
    ∃ conns' evs, BackgroundScript.hookMutation oracle settings st m =
      .ok ({ st with connections := conns' },
        evs ++ [HubEvent.save (filterObject st.storeState settings.persistentStates)]) ∧
      (evs ++ [HubEvent.save (filterObject st.storeState
          settings.persistentStates)]).filterMap saveProj =
        [filterObject st.storeState settings.persistentStates] := by
  obtain ⟨conns', evs, he, hs⟩ := hubHookMutation_save_spec oracle settings st m hign
  exact ⟨conns', evs, he,
    by simp [List.filterMap_append, List.filterMap_eq_nil_iff.mpr hs, saveProj]⟩

/-- C5, witness for the amended theorem at a concrete input. -/
theorem C5_witness :
    ∃ conns' evs, BackgroundScript.hookMutation hubNoFail
      ⟨"vuex-webextensions".toList, true, [], [], ["k"]⟩
      ⟨[], [("k", JsVal.num 5), ("z", JsVal.num 6)]⟩ ⟨"inc", JsVal.null⟩ =
      .ok (({ connections := conns', storeState := [("k", JsVal.num 5), ("z", JsVal.num 6)] } : HubState),
        evs ++ [HubEvent.save (filterObject [("k", JsVal.num 5), ("z", JsVal.num 6)] ["k"])]) ∧
      (evs ++ [HubEvent.save (filterObject [("k", JsVal.num 5), ("z", JsVal.num 6)]
          ["k"])]).filterMap saveProj =
        [filterObject [("k", JsVal.num 5), ("z", JsVal.num 6)] ["k"]] :=
  C5_amended_unconditional_persist hubNoFail
    ⟨"vuex-webextensions".toList, true, [], [], ["k"]⟩
    ⟨[], [("k", JsVal.num 5), ("z", JsVal.num 6)]⟩ ⟨"inc", JsVal.null⟩ rfl

/-! ### Claim C7 -/

/-- C7: two mutations with equal type but differently serialized payloads are
never conflated by the echo checks.  A hub connection whose tracking list
holds only `⟨t, p1⟩` still gets `⟨t, p2⟩` relayed (no false echo match, list
untouched); when the list holds both, the scan removes exactly the
equal-payload record; and an initialized peer in the same situation sends
`⟨t, p2⟩` instead of dropping it. -/
theorem C7_no_false_echo_conflation (settings : Settings) (c : Connection)
    (pst : PeerState) (t : String) (p1 p2 : JsVal)
    (hneq : stringify p1 ≠ stringify p2)
    (hname : validConnectionName c.name = true)
    (hcrm : c.receivedMutations = [⟨t, p1⟩])
    (hres : t ≠ "vweReplaceState")
    (hign : settings.ignoredMutations.contains t = false)
    (hpinit : pst.initialized = true)
    (hprm : pst.receivedMutations = [⟨t, p1⟩]) :
    BackgroundScript.relayMutationToConn hubNoFail ⟨t, p2⟩ c =
      .ok (c, [HubEvent.post c.id (Msg.mutationSync ⟨t, p2⟩)]) ∧
    BackgroundScript.relayMutationToConn hubNoFail ⟨t, p2⟩
      { c with receivedMutations := [⟨t, p1⟩, ⟨t, p2⟩] } =
      .ok ({ c with receivedMutations := [⟨t, p1⟩] }, []) ∧
    ContentScript.hookMutation noFail settings pst ⟨t, p2⟩ =
      .ok (pst, [PeerEvent.post (Msg.mutationSync ⟨t, p2⟩)]) := by
  have hb : (stringify p1 == stringify p2) = false := beq_eq_false_iff_ne.mpr hneq
  have hpred : mutationMatches ⟨t, p1⟩ ⟨t, p2⟩ = false := by
    simp [mutationMatches, hb]
  refine ⟨?_, ?_, ?_⟩
  · have hnone := removeFirstMatch_eq_none (p := fun r => mutationMatches r ⟨t, p2⟩)
      (l := [⟨t, p1⟩]) (by simpa using hpred)
    have hnoneL := removeLastMatch_eq_none (p := fun r => mutationMatches r ⟨t, p2⟩)
      (l := [⟨t, p1⟩]) (by simpa using hpred)
    simp [BackgroundScript.relayMutationToConn, hname, hcrm, hnoneL,
      sendMutation_eq, hubNoFail, Except.map]
  · have hsome := removeLastMatch_append (fun r => mutationMatches r ⟨t, p2⟩)
      ⟨t, p2⟩ [] (mutationMatches_self _) (by simp) [⟨t, p1⟩]
    have hsome' : removeLastMatch (fun r => mutationMatches r ⟨t, p2⟩)
        [⟨t, p1⟩, ⟨t, p2⟩] = some [⟨t, p1⟩] := by simpa using hsome
    simp [BackgroundScript.relayMutationToConn, hname, hsome']
  · obtain ⟨rm0, ra0, ini0, pm0, pa0⟩ := pst
    have hinit' : ini0 = true := hpinit
    subst hinit'
    have hprm' : rm0 = [⟨t, p1⟩] := hprm
    subst hprm'
    have hmem : t ∉ settings.ignoredMutations := by simpa using hign
    have hnone := removeFirstMatch_eq_none (p := fun r => mutationMatches r ⟨t, p2⟩)
      (l := [⟨t, p1⟩]) (by simpa using hpred)
    simp [ContentScript.hookMutation, hres, hmem, hnone,
      peer_sendMutation_noFail, Except.map]

/-- C7, witness at a concrete input. -/
theorem C7_witness :
    BackgroundScript.relayMutationToConn hubNoFail ⟨"x", JsVal.num 2⟩
      ⟨0, some "vuex-webextensions_a".toList, [⟨"x", JsVal.num 1⟩], []⟩ =
      .ok (⟨0, some "vuex-webextensions_a".toList, [⟨"x", JsVal.num 1⟩], []⟩,
        [HubEvent.post 0 (Msg.mutationSync ⟨"x", JsVal.num 2⟩)]) ∧
    BackgroundScript.relayMutationToConn hubNoFail ⟨"x", JsVal.num 2⟩
      ⟨0, some "vuex-webextensions_a".toList, [⟨"x", JsVal.num 1⟩, ⟨"x", JsVal.num 2⟩], []⟩ =
      .ok (⟨0, some "vuex-webextensions_a".toList, [⟨"x", JsVal.num 1⟩], []⟩, []) ∧
    ContentScript.hookMutation noFail ⟨"vuex-webextensions".toList, true, [], [], []⟩
      ⟨[⟨"x", JsVal.num 1⟩], [], true, [], []⟩ ⟨"x", JsVal.num 2⟩ =
      .ok (⟨[⟨"x", JsVal.num 1⟩], [], true, [], []⟩,
        [PeerEvent.post (Msg.mutationSync ⟨"x", JsVal.num 2⟩)]) :=
  C7_no_false_echo_conflation ⟨"vuex-webextensions".toList, true, [], [], []⟩
    ⟨0, some "vuex-webextensions_a".toList, [⟨"x", JsVal.num 1⟩], []⟩
    ⟨[⟨"x", JsVal.num 1⟩], [], true, [], []⟩ "x" (JsVal.num 1) (JsVal.num 2)
    (by decide) (by decide) rfl (by decide) rfl rfl rfl

/-! ### Claim C8 -/

/-- C8, counterexample.  The hub's backward scan with `break`
(`backgroundScript.js:113-120`) removes the LAST matching entry, not the
first: with `receivedActions = [⟨t,1⟩, ⟨t,2⟩]` and a hooked action of type
`t`, the code leaves `[⟨t,1⟩]`, while first-match removal would leave
`[⟨t,2⟩]`. -/
theorem C8_counterexample :
    BackgroundScript.relayActionToConn hubNoFail ⟨"t", JsVal.null⟩
      ⟨7, some "vuex-webextensions_x".toList, [], [⟨"t", JsVal.num 1⟩, ⟨"t", JsVal.num 2⟩]⟩ =
      .ok (⟨7, some "vuex-webextensions_x".toList, [], [⟨"t", JsVal.num 1⟩]⟩, []) ∧
    removeFirstMatch (fun r => r.type == "t")
      [⟨"t", JsVal.num 1⟩, ⟨"t", JsVal.num 2⟩] = some [⟨"t", JsVal.num 2⟩] ∧
    ([⟨"t", JsVal.num 1⟩] : List Record) ≠ [⟨"t", JsVal.num 2⟩] :=
  ⟨rfl, rfl, by simp⟩

/-- C8, amended.  The peer-side scans (`findIndex` + `splice`) remove the
FIRST matching entry of `receivedMutations`/`receivedActions`, while the
hub-side scans (backward loop + `splice` + `break`) remove the LAST matching
entry of the per-connection lists; in all four cases exactly one entry is
removed per hook invocation when a match exists. -/
theorem C8_amended_removal_position (p : Record → Bool) (l₁ l₂ : List Record)
    (e : Record) (he : p e = true) :
    ((∀ x ∈ l₁, p x = false) → removeFirstMatch p (l₁ ++ e :: l₂) = some (l₁ ++ l₂)) ∧
    ((∀ x ∈ l₂, p x = false) → removeLastMatch p (l₁ ++ e :: l₂) = some (l₁ ++ l₂)) ∧
    (∀ l l' : List Record, removeFirstMatch p l = some l' → l.length = l'.length + 1) ∧
    (∀ l l' : List Record, removeLastMatch p l = some l' → l.length = l'.length + 1) :=
  ⟨fun h₁ => removeFirstMatch_append l₂ he h₁,
   fun h₂ => removeLastMatch_append p e l₂ he h₂ l₁,
   fun _ _ h => removeFirstMatch_length h,
   fun _ _ h => removeLastMatch_length h⟩

/-- C8, witness at concrete inputs. -/
theorem C8_witness :
    removeFirstMatch (fun r => r.type == "t")
      ([⟨"u", JsVal.null⟩] ++ ⟨"t", JsVal.null⟩ :: [⟨"v", JsVal.null⟩]) =
      some ([⟨"u", JsVal.null⟩] ++ [⟨"v", JsVal.null⟩]) ∧
    removeLastMatch (fun r => r.type == "t")
      ([⟨"u", JsVal.null⟩] ++ ⟨"t", JsVal.null⟩ :: [⟨"v", JsVal.null⟩]) =
      some ([⟨"u", JsVal.null⟩] ++ [⟨"v", JsVal.null⟩]) ∧
    ([⟨"u", JsVal.null⟩, ⟨"t", JsVal.null⟩, ⟨"v", JsVal.null⟩] : List Record).length =
      ([⟨"u", JsVal.null⟩, ⟨"v", JsVal.null⟩] : List Record).length + 1 := by
  have h := C8_amended_removal_position (fun r => r.type == "t")
    [⟨"u", JsVal.null⟩] [⟨"v", JsVal.null⟩] ⟨"t", JsVal.null⟩ rfl
  exact ⟨h.1 (by decide), h.2.1 (by decide),
    h.2.2.1 [⟨"u", JsVal.null⟩, ⟨"t", JsVal.null⟩, ⟨"v", JsVal.null⟩]
      [⟨"u", JsVal.null⟩, ⟨"v", JsVal.null⟩] rfl⟩

/-! ### Claim C10 -/

/-- C10: for an `@@STORE_SYNC_ACTION` at an initialized peer, the record is
appended to `receivedActions` and `dispatch` is invoked with the whole record
object as its single argument, while the hub's handler for the same message
type invokes `dispatch` with type and payload as two separate arguments; the
two call shapes are never equal. -/
theorem C10_dispatch_call_shapes (applyMutation : String → JsVal → Obj → Obj)
    (settings : Settings) (pst : PeerState) (hst : HubState) (connId : Nat)
    (r : Record) (hinit : pst.initialized = true) :
    ContentScript.onMessage noFail settings pst (.actionSync r) =
      .ok ({ pst with receivedActions := pst.receivedActions ++ [r] },
        [PeerEvent.dispatchCall (DispatchCall.packed r)]) ∧
    BackgroundScript.onMessage applyMutation hubNoFail settings hst connId
      (.actionSync r) =
      .ok ({ hst with connections :=
          BackgroundScript.pushReceivedAction connId r hst.connections },
        [HubEvent.dispatchCall (DispatchCall.unpacked r.type r.payload)]) ∧
    (∀ rec : Record, DispatchCall.packed rec ≠ DispatchCall.unpacked rec.type rec.payload) := by
  refine ⟨?_, rfl, ?_⟩
  · simp [ContentScript.onMessage, hinit]
  · intro rec h
    exact DispatchCall.noConfusion h

/-- C10, witness at a concrete input. -/
theorem C10_witness :
    ContentScript.onMessage noFail ⟨"vuex-webextensions".toList, true, [], [], []⟩
      ⟨[], [], true, [], []⟩ (.actionSync ⟨"act", JsVal.num 3⟩) =
      .ok (⟨[], [] ++ [⟨"act", JsVal.num 3⟩], true, [], []⟩,
        [PeerEvent.dispatchCall (DispatchCall.packed ⟨"act", JsVal.num 3⟩)]) ∧
    BackgroundScript.onMessage (fun _ _ s => s) hubNoFail
      ⟨"vuex-webextensions".toList, true, [], [], []⟩ ⟨[], []⟩ 0
      (.actionSync ⟨"act", JsVal.num 3⟩) =
      .ok (⟨BackgroundScript.pushReceivedAction 0 ⟨"act", JsVal.num 3⟩ [], []⟩,
        [HubEvent.dispatchCall (DispatchCall.unpacked "act" (JsVal.num 3))]) ∧
    (∀ rec : Record, DispatchCall.packed rec ≠ DispatchCall.unpacked rec.type rec.payload) :=
  C10_dispatch_call_shapes (fun _ _ s => s)
    ⟨"vuex-webextensions".toList, true, [], [], []⟩ ⟨[], [], true, [], []⟩
    ⟨[], []⟩ 0 ⟨"act", JsVal.num 3⟩ rfl

/-! ### Claim C9 -/

theorem prefix_append_cons_not_mem {y : Char} :
    ∀ {t u v : List Char}, t <+: u ++ y :: v → y ∉ t → t <+: u
  | [], _, _, _, _ => List.nil_prefix
  | a :: t', [], v, h, hy => by
    rw [List.nil_append, List.cons_prefix_cons] at h
    exact absurd (h.1 ▸ List.mem_cons_self a t') hy
  | a :: t', b :: u', v, h, hy => by
    rw [List.cons_append, List.cons_prefix_cons] at h
    have ht' := prefix_append_cons_not_mem h.2
      (fun hmem => hy (List.mem_cons_of_mem a hmem))
    exact List.cons_prefix_cons.mpr ⟨h.1, ht'⟩

theorem infix_append_cons_not_mem {y : Char} :
    ∀ {u : List Char} {t v : List Char}, t <:+: u ++ y :: v → y ∉ t →
      t <:+: u ∨ t <:+: v
  | [], t, v, h, hy => by
    rw [List.nil_append, List.infix_cons_iff] at h
    rcases h with h | h
    · rcases t with _ | ⟨a, t'⟩
      · exact Or.inl (List.nil_infix)
      · rw [List.cons_prefix_cons] at h
        exact absurd (h.1 ▸ List.mem_cons_self a t') hy
    · exact Or.inr h
  | b :: u', t, v, h, hy => by
    rw [List.cons_append, List.infix_cons_iff] at h
    rcases h with h | h
    · have := prefix_append_cons_not_mem (u := b :: u') (by simpa using h) hy
      exact Or.inl this.isInfix
    · rcases infix_append_cons_not_mem h hy with h1 | h2
      · exact Or.inl (h1.trans (List.infix_cons List.infix_rfl))
      · exact Or.inr h2

/-- A peer name `connectionName ++ "_" ++ scriptId` contains the protocol
marker only when `connectionName` itself does: the marker has no underscore
and the random base-36 `scriptId` cannot contain the marker's dash. -/
theorem peerConnectionName_marker (cn sid : List Char)
    (hcn : ¬ marker <:+: cn)
    (hsid : ∀ ch ∈ sid, isBase36Char ch = true) :
    validConnectionName (some (peerConnectionName cn sid)) = false := by
  unfold validConnectionName peerConnectionName
  rw [decide_eq_false_iff_not]
  intro h
  have hu : '_' ∉ marker := by decide
  rcases infix_append_cons_not_mem h hu with h1 | h2
  · exact hcn h1
  · have hm : '-' ∈ marker := by decide
    have hin : '-' ∈ sid := h2.subset hm
    have hbase := hsid '-' hin
    have : isBase36Char '-' = false := by decide
    rw [this] at hbase
    exact Bool.false_ne_true hbase

/-- C9: a hub relay pass never sends anything to a connection whose name is
not a string or does not contain the literal substring
`"vuex-webextensions"` (both the mutation and the action pass, for any
transport); this marker test is a fixed string, independent of the configured
`settings.connectionName` (the hub subscribers behave identically under any
two settings agreeing on everything except `connectionName`); consequently, a
peer name built as `connectionName + "_" + scriptId` from a `connectionName`
that lacks the marker fails the test, so such a hub relays to no peer at all. -/
theorem C9_marker_filter (oracle : Nat → Msg → Bool) (mutation action : Record)
    (c : Connection) (s₁ s₂ : Settings) (st : HubState)
    (hbad : validConnectionName c.name = false)
    (hig : s₁.ignoredMutations = s₂.ignoredMutations)
    (higa : s₁.ignoredActions = s₂.ignoredActions)
    (hps : s₁.persistentStates = s₂.persistentStates) :
    BackgroundScript.relayMutationToConn oracle mutation c = .ok (c, []) ∧
    BackgroundScript.relayActionToConn oracle action c = .ok (c, []) ∧
    BackgroundScript.hookMutation oracle s₁ st mutation =
      BackgroundScript.hookMutation oracle s₂ st mutation ∧
    BackgroundScript.hookAction oracle s₁ st action =
      BackgroundScript.hookAction oracle s₂ st action ∧
    (∀ cn sid, ¬ marker <:+: cn → (∀ ch ∈ sid, isBase36Char ch = true) →
      validConnectionName (some (peerConnectionName cn sid)) = false) := by
  refine ⟨?_, ?_, ?_, ?_, fun cn sid h1 h2 => peerConnectionName_marker cn sid h1 h2⟩
  · simp [BackgroundScript.relayMutationToConn, hbad]
  · simp [BackgroundScript.relayActionToConn, hbad]
  · simp [BackgroundScript.hookMutation, hig, hps]
  · simp [BackgroundScript.hookAction, higa]

/-- C9, witness: a connection named `"popup"` gets nothing relayed, and two
settings differing only in `connectionName` drive the hub hooks identically. -/
theorem C9_witness :
    BackgroundScript.relayMutationToConn hubNoFail ⟨"inc", JsVal.null⟩
      ⟨3, some "popup".toList, [], []⟩ = .ok (⟨3, some "popup".toList, [], []⟩, []) ∧
    BackgroundScript.relayActionToConn hubNoFail ⟨"act", JsVal.null⟩
      ⟨3, some "popup".toList, [], []⟩ = .ok (⟨3, some "popup".toList, [], []⟩, []) ∧
    BackgroundScript.hookMutation hubNoFail ⟨"aaa".toList, true, ["i"], ["j"], ["k"]⟩
      ⟨[], []⟩ ⟨"inc", JsVal.null⟩ =
    BackgroundScript.hookMutation hubNoFail ⟨"bbb".toList, true, ["i"], ["j"], ["k"]⟩
      ⟨[], []⟩ ⟨"inc", JsVal.null⟩ ∧
    BackgroundScript.hookAction hubNoFail ⟨"aaa".toList, true, ["i"], ["j"], ["k"]⟩
      ⟨[], []⟩ ⟨"act", JsVal.null⟩ =
    BackgroundScript.hookAction hubNoFail ⟨"bbb".toList, true, ["i"], ["j"], ["k"]⟩
      ⟨[], []⟩ ⟨"act", JsVal.null⟩ ∧
    (∀ cn sid, ¬ marker <:+: cn → (∀ ch ∈ sid, isBase36Char ch = true) →
      validConnectionName (some (peerConnectionName cn sid)) = false) :=
  C9_marker_filter hubNoFail ⟨"inc", JsVal.null⟩ ⟨"act", JsVal.null⟩
    ⟨3, some "popup".toList, [], []⟩ ⟨"aaa".toList, true, ["i"], ["j"], ["k"]⟩
    ⟨"bbb".toList, true, ["i"], ["j"], ["k"]⟩ ⟨[], []⟩ (by decide) rfl rfl rfl

/-! ### Claim C2 -/

theorem postsTo_append (i : Nat) (a b : List HubEvent) :
    postsTo i (a ++ b) = postsTo i a ++ postsTo i b :=
  List.filterMap_append a b _

theorem postsTo_flatten (i : Nat) : ∀ L : List (List HubEvent),
    postsTo i L.flatten = (L.map (postsTo i)).flatten
  | [] => rfl
  | l :: L => by
    simp only [List.flatten_cons, postsTo_append, List.map_cons]
    rw [postsTo_flatten i L]

theorem postsTo_eq_nil (i : Nat) (evs : List HubEvent)
    (h : ∀ j msg, HubEvent.post j msg ∈ evs → j ≠ i) : postsTo i evs = [] := by
  unfold postsTo
  rw [List.filterMap_eq_nil_iff]
  intro e he
  rcases e with ⟨j, msg⟩ | _ | o | ⟨t, p⟩ | dc
  · simp [beq_eq_false_iff_ne.mpr (h j msg he)]
  · rfl
  · rfl
  · rfl
  · rfl

/-- The state of a connection after the per-connection relay step in the round
of claim C2: the origin connection gets the just-appended record removed
again; every other connection is untouched. -/
def relayResConn (cid : Nat) (rm : List Record) (x : Connection) : Connection :=
  if x.id == cid then { x with receivedMutations := rm } else x

/-- The events the per-connection relay step emits in the round of claim C2:
nothing for the origin (echo suppressed), one mutation-sync post for every
other protocol-valid connection, nothing for invalid names. -/
def relayOutEvs (cid : Nat) (r : Record) (x : Connection) : List HubEvent :=
  if x.id == cid then []
  else if validConnectionName x.name then [HubEvent.post x.id (Msg.mutationSync r)]
  else []

theorem relayMutationConns_eq_map (oracle : Nat → Msg → Bool) (m : Record)
    (f : Connection → Connection) (g : Connection → List HubEvent) :
    ∀ l : List Connection,
      (∀ x ∈ l, BackgroundScript.relayMutationToConn oracle m x = .ok (f x, g x)) →
      BackgroundScript.relayMutationConns oracle m l = .ok (l.map f, (l.map g).flatten)
  | [], _ => rfl
  | c :: cs, h => by
    have hc := h c (List.mem_cons_self c cs)
    have hcs := relayMutationConns_eq_map oracle m f g cs
      (fun x hx => h x (List.mem_cons_of_mem c hx))
    simp [BackgroundScript.relayMutationConns, hc, hcs, Bind.bind, Except.bind]

theorem relayOutEvs_post_mem {cid : Nat} {r : Record} {x : Connection} {j : Nat}
    {msg : Msg} (h : HubEvent.post j msg ∈ relayOutEvs cid r x) :
    j = x.id ∧ j ≠ cid ∧ msg = Msg.mutationSync r ∧
      validConnectionName x.name = true := by
  unfold relayOutEvs at h
  by_cases h1 : x.id == cid
  · simp [h1] at h
  · by_cases h2 : validConnectionName x.name = true
    · rw [if_neg (by simpa using h1), if_pos h2, List.mem_singleton] at h
      rcases HubEvent.post.inj h with ⟨rfl, rfl⟩
      exact ⟨rfl, by simpa using h1, rfl, h2⟩
    · simp [h1, h2] at h

/-- C2: when the hub receives an `@@STORE_SYNC_MUTATION` from a protocol-valid
connection `c` and the mutation is not ignored (and no other connection is
holding a stale matching echo record), the record is appended to `c`'s
`receivedMutations` and committed locally; the relay pass triggered by that
commit finds and removes the appended record, sends nothing back to `c`
(whose tracking list therefore ends unchanged), and sends exactly one
mutation-sync message to every other protocol-valid connection (none to
invalid-named ones). -/
theorem C2_no_echo_relay (applyM : String → JsVal → Obj → Obj)
    (settings : Settings) (st : HubState) (c : Connection) (r : Record)
    (hmem : c ∈ st.connections)
    (hnodup : (st.connections.map Connection.id).Nodup)
    (hname : validConnectionName c.name = true)
    (hign : settings.ignoredMutations.contains r.type = false)
    (hothers : ∀ d ∈ st.connections, d.id ≠ c.id →
      ∀ e ∈ d.receivedMutations, mutationMatches e r = false) :
    ∃ conns' evs, BackgroundScript.onMessage applyM hubNoFail settings st c.id
        (.mutationSync r) =
      .ok (({ connections := conns', storeState := applyM r.type r.payload st.storeState } : HubState),
        HubEvent.commit r.type r.payload :: evs) ∧
      postsTo c.id (HubEvent.commit r.type r.payload :: evs) = [] ∧
      (∃ c' ∈ conns', c'.id = c.id ∧ c'.receivedMutations = c.receivedMutations) ∧
      (∀ d ∈ st.connections, d.id ≠ c.id → validConnectionName d.name = true →
        postsTo d.id (HubEvent.commit r.type r.payload :: evs) = [Msg.mutationSync r]) ∧
      (∀ d ∈ st.connections, d.id ≠ c.id → validConnectionName d.name = false →
        postsTo d.id (HubEvent.commit r.type r.payload :: evs) = []) := by
  have hmem' : r.type ∉ settings.ignoredMutations := by simpa using hign
  -- the push is a map over the registry
  have hpush : BackgroundScript.pushReceivedMutation c.id r st.connections =
      st.connections.map
        (fun x => if x.id == c.id
          then { x with receivedMutations := x.receivedMutations ++ [r] } else x) := rfl
  -- the per-connection relay outcome for every pushed connection
  have hrel : ∀ x ∈ st.connections.map
      (fun x => if x.id == c.id
        then { x with receivedMutations := x.receivedMutations ++ [r] } else x),
      BackgroundScript.relayMutationToConn hubNoFail r x =
        .ok (relayResConn c.id c.receivedMutations x, relayOutEvs c.id r x) := by
    intro x hx
    obtain ⟨d, hd, rfl⟩ := List.mem_map.mp hx
    by_cases hdc : d.id = c.id
    · have hdeq : d = c := List.inj_on_of_nodup_map hnodup hd hmem hdc
      subst hdeq
      have hbeq : (d.id == d.id) = true := by simp
      have hlast : removeLastMatch (fun e => mutationMatches e r)
          (d.receivedMutations ++ [r]) = some d.receivedMutations := by
        simpa using removeLastMatch_append (fun e => mutationMatches e r)
          r [] (mutationMatches_self r) (by simp) d.receivedMutations
      simp [hbeq, BackgroundScript.relayMutationToConn, hname, hlast,
        relayResConn, relayOutEvs]
    · have hbeq : (d.id == c.id) = false := by simpa using hdc
      by_cases hv : validConnectionName d.name = true
      · have hnone : removeLastMatch (fun e => mutationMatches e r)
            d.receivedMutations = none :=
          removeLastMatch_eq_none (fun e he => hothers d hd hdc e he)
        simp [hbeq, BackgroundScript.relayMutationToConn, hv, hnone,
          sendMutation_eq, hubNoFail, relayResConn, relayOutEvs, Except.map]
      · simp [hbeq, BackgroundScript.relayMutationToConn, hv,
          relayResConn, relayOutEvs]
  have hconns := relayMutationConns_eq_map hubNoFail r
    (relayResConn c.id c.receivedMutations) (relayOutEvs c.id r) _ hrel
  -- abbreviations for the two pass results
  set updL := st.connections.map
    (fun x => if x.id == c.id
      then { x with receivedMutations := x.receivedMutations ++ [r] } else x) with hupdL
  set Evs := (updL.map (relayOutEvs c.id r)).flatten with hEvs
  -- every post in the relay events carries its connection's id, never c.id
  have hEvsPost : ∀ j msg, HubEvent.post j msg ∈ Evs →
      j ≠ c.id ∧ ∃ x ∈ updL, j = x.id := by
    intro j msg hj
    rw [hEvs, List.mem_flatten] at hj
    obtain ⟨le, hle, hin⟩ := hj
    obtain ⟨x, hxl, rfl⟩ := List.mem_map.mp hle
    obtain ⟨hjx, hjc, _, _⟩ := relayOutEvs_post_mem hin
    exact ⟨hjc, x, hxl, hjx⟩
  refine ⟨updL.map (relayResConn c.id c.receivedMutations),
    Evs ++ [HubEvent.save (filterObject (applyM r.type r.payload st.storeState)
      settings.persistentStates)], ?_, ?_, ?_, ?_, ?_⟩
  · simp [BackgroundScript.onMessage, BackgroundScript.commit,
      BackgroundScript.hookMutation, hmem', hpush, hconns, Bind.bind, Except.bind]
  · refine postsTo_eq_nil _ _ ?_
    intro j msg hj
    rcases List.mem_cons.mp hj with h | h
    · exact absurd h (by simp)
    · rcases List.mem_append.mp h with h | h
      · exact (hEvsPost j msg h).1
      · simp at h
  · refine ⟨relayResConn c.id c.receivedMutations
      (if c.id == c.id then { c with receivedMutations := c.receivedMutations ++ [r] } else c),
      List.mem_map_of_mem _ (by rw [hupdL]; exact List.mem_map_of_mem _ hmem), ?_, ?_⟩
    · simp [relayResConn]
    · simp [relayResConn]
  all_goals {
    intro d hd hdc hv
    obtain ⟨l₁, l₂, hsplit⟩ := List.append_of_mem hd
    have hnodup' := hnodup
    rw [hsplit, List.map_append, List.map_cons, List.nodup_append] at hnodup'
    obtain ⟨hn₁, hn₂, hdisj⟩ := hnodup'
    have hdnotin₁ : ∀ e ∈ l₁, e.id ≠ d.id := by
      intro e he heq
      exact hdisj (List.mem_map_of_mem _ he) (heq ▸ List.mem_cons_self _ _)
    have hdnotin₂ : ∀ e ∈ l₂, e.id ≠ d.id := by
      intro e he heq
      have := (List.nodup_cons.mp hn₂).1
      exact this (heq ▸ List.mem_map_of_mem _ he)
    have hcons : postsTo d.id (HubEvent.commit r.type r.payload ::
        (Evs ++ [HubEvent.save (filterObject (applyM r.type r.payload st.storeState)
          settings.persistentStates)])) = postsTo d.id Evs := by
      rw [show postsTo d.id (HubEvent.commit r.type r.payload ::
          (Evs ++ [HubEvent.save (filterObject (applyM r.type r.payload st.storeState)
            settings.persistentStates)])) = postsTo d.id
          (Evs ++ [HubEvent.save (filterObject (applyM r.type r.payload st.storeState)
            settings.persistentStates)]) from rfl,
        postsTo_append]
      simp [postsTo]
    rw [hcons, hEvs, hupdL, hsplit]
    rw [List.map_append, List.map_cons, List.map_append, List.map_cons,
      List.flatten_append, List.flatten_cons, postsTo_append, postsTo_append]
    have hside₁ : postsTo d.id ((l₁.map (fun x => if x.id == c.id
        then { x with receivedMutations := x.receivedMutations ++ [r] } else x)).map
          (relayOutEvs c.id r)).flatten = [] := by
      refine postsTo_eq_nil _ _ ?_
      intro j msg hj
      rw [List.mem_flatten] at hj
      obtain ⟨le, hle, hin⟩ := hj
      obtain ⟨x, hxl, rfl⟩ := List.mem_map.mp hle
      obtain ⟨e, hel, rfl⟩ := List.mem_map.mp hxl
      obtain ⟨hjx, _, _, _⟩ := relayOutEvs_post_mem hin
      have heid : (if e.id == c.id
          then { e with receivedMutations := e.receivedMutations ++ [r] } else e).id
          = e.id := by by_cases hx : e.id == c.id <;> simp [hx]
      rw [heid] at hjx
      exact hjx ▸ hdnotin₁ e hel
    have hside₂ : postsTo d.id ((l₂.map (fun x => if x.id == c.id
        then { x with receivedMutations := x.receivedMutations ++ [r] } else x)).map
          (relayOutEvs c.id r)).flatten = [] := by
      refine postsTo_eq_nil _ _ ?_
      intro j msg hj
      rw [List.mem_flatten] at hj
      obtain ⟨le, hle, hin⟩ := hj
      obtain ⟨x, hxl, rfl⟩ := List.mem_map.mp hle
      obtain ⟨e, hel, rfl⟩ := List.mem_map.mp hxl
      obtain ⟨hjx, _, _, _⟩ := relayOutEvs_post_mem hin
      have heid : (if e.id == c.id
          then { e with receivedMutations := e.receivedMutations ++ [r] } else e).id
          = e.id := by by_cases hx : e.id == c.id <;> simp [hx]
      rw [heid] at hjx
      exact hjx ▸ hdnotin₂ e hel
    have hdbeq : (d.id == c.id) = false := by simpa using hdc
    rw [hside₁, hside₂]
    simp [relayOutEvs, hdbeq, hv, postsTo]
  }

/-- C2, witness: hub with protocol-valid connections `0` (origin) and `1`, and
an invalid-named connection `2`; the round relays exactly once to `1`, never
back to `0`, and never to `2`. -/
theorem C2_witness :
    ∃ conns' evs, BackgroundScript.onMessage (fun _ _ s => s) hubNoFail
      ⟨"vuex-webextensions".toList, true, [], [], []⟩
      ⟨[⟨0, some "vuex-webextensions_a".toList, [], []⟩,
        ⟨1, some "vuex-webextensions_b".toList, [], []⟩,
        ⟨2, some "popup".toList, [], []⟩], []⟩ 0
      (.mutationSync ⟨"inc", JsVal.null⟩) =
      .ok (({ connections := conns', storeState := [] } : HubState),
        HubEvent.commit "inc" JsVal.null :: evs) ∧
      postsTo 0 (HubEvent.commit "inc" JsVal.null :: evs) = [] ∧
      (∃ c' ∈ conns', c'.id = 0 ∧ c'.receivedMutations = []) ∧
      (∀ d ∈ [⟨0, some "vuex-webextensions_a".toList, [], []⟩,
          ⟨1, some "vuex-webextensions_b".toList, [], []⟩,
          ⟨2, some "popup".toList, [], []⟩], Connection.id d ≠ 0 →
        validConnectionName d.name = true →
        postsTo d.id (HubEvent.commit "inc" JsVal.null :: evs) =
          [Msg.mutationSync ⟨"inc", JsVal.null⟩]) ∧
      (∀ d ∈ [⟨0, some "vuex-webextensions_a".toList, [], []⟩,
          ⟨1, some "vuex-webextensions_b".toList, [], []⟩,
          ⟨2, some "popup".toList, [], []⟩], Connection.id d ≠ 0 →
        validConnectionName d.name = false →
        postsTo d.id (HubEvent.commit "inc" JsVal.null :: evs) = []) :=
  C2_no_echo_relay (fun _ _ s => s) ⟨"vuex-webextensions".toList, true, [], [], []⟩
    ⟨[⟨0, some "vuex-webextensions_a".toList, [], []⟩,
      ⟨1, some "vuex-webextensions_b".toList, [], []⟩,
      ⟨2, some "popup".toList, [], []⟩], []⟩
    ⟨0, some "vuex-webextensions_a".toList, [], []⟩ ⟨"inc", JsVal.null⟩
    (List.mem_cons_self _ _) (by decide) (by decide) rfl
    (by intro d hd hne e he; simp at hd; rcases hd with rfl | rfl | rfl <;> simp_all)

end VuexWeb
